import Mathlib

/-!
Verification of the OpenReviewScope pipeline orchestration core.

This file shallowly embeds the TypeScript sources of the repository:
  - src/state/schemas.ts        (data model and zod validation)
  - src/state/store.ts          (StateStore persistence)
  - src/workflows/consensus.ts  (calculateConsensus, createConsensusDecision)
  - src/workflows/scopingReview (stage driver: shouldRunStage, abstractScreening,
                                 pdfFetchingGate, fullTextScreening, ingest)
  - src/tools/dedupe.ts         (deduplicateStudies, findDuplicate, normalizeDoi)

Conventions of the embedding:
  - TypeScript string-union enums (decision, stage, consensus, final_decision,
    current_stage) are modelled as String, exactly as they are at runtime in
    JavaScript; the zod enum membership tests are modelled by the corresponding
    schema check functions.
  - JavaScript numbers holding counts are modelled as Int (zod z.number().int());
    similarity scores computed by the dedupe code are modelled as Rat.
  - Functions that can throw return Except String.
  - Wall-clock timestamps (new Date().toISOString()) are passed in as an explicit
    argument named now; the refresh of updated_at inside StateStore.save is
    immaterial to every claim and is not modelled.
  - External oracles (screening agents, the adjudicator, PDF availability on the
    filesystem) are parameters of the driver functions, mirroring the fact that
    they are external collaborators.
-/

/-- Model of the EvidenceQuoteSchema object (schemas.ts). -/
structure EvidenceQuote where
  text : String
  location : String
deriving DecidableEq

/-- Model of the ScreeningDecisionSchema object (schemas.ts): one reviewer vote.
The decision field holds one of the strings include, exclude, unsure. -/
structure ScreeningDecision where
  stage : String
  agent_id : String
  study_id : String
  decision : String
  reasons : List String
  evidence_quotes : List EvidenceQuote
  timestamp : String
  model : String
  prompt_hash : String
  seed : Int
deriving DecidableEq

/-- Model of the ConsensusDecisionSchema object (schemas.ts): the resolved
verdict for one record at one stage. -/
structure ConsensusDecision where
  stage : String
  study_id : String
  votes : List ScreeningDecision
  consensus : String
  final_decision : String
  adjudicator_rationale : Option String
  timestamp : String
deriving DecidableEq

/-- Model of the AdjudicatorResponseSchema object (schemas.ts). -/
structure AdjudicatorResponse where
  final_decision : String
  adjudicator_rationale : String
deriving DecidableEq

/-- Return value of calculateConsensus (consensus.ts lines 23 to 26). -/
structure ConsensusCalc where
  needsAdjudication : Bool
  preliminaryConsensus : String
deriving DecidableEq

/-- Model of calculateConsensus (consensus.ts lines 19 to 64). Throws when the
vote count differs from 3, then escalates whenever some vote is unsure, then
decides by a majority of at least 2. The studyId and stage arguments are unused
by the source as well. -/
def calculateConsensus (studyId : String) (votes : List ScreeningDecision)
    (stage : String) : Except String ConsensusCalc :=
  if votes.length ≠ 3 then
    .error ("Expected 3 votes, got " ++ toString votes.length)
  else
    let includeCount := (votes.filter (fun v => v.decision = "include")).length
    let excludeCount := (votes.filter (fun v => v.decision = "exclude")).length
    let unsureCount := (votes.filter (fun v => v.decision = "unsure")).length
    if unsureCount > 0 then
      .ok { needsAdjudication := true, preliminaryConsensus := "escalate_to_adjudicator" }
    else if includeCount ≥ 2 then
      .ok { needsAdjudication := false, preliminaryConsensus := "include" }
    else if excludeCount ≥ 2 then
      .ok { needsAdjudication := false, preliminaryConsensus := "exclude" }
    else
      .ok { needsAdjudication := true, preliminaryConsensus := "escalate_to_adjudicator" }

/-- Model of the JavaScript falsiness test on an optional string: undefined and
the empty string are falsy. Used for the rationale check in
createConsensusDecision. -/
def jsStrFalsy : Option String → Bool
  | none => true
  | some s => s = ""

/-- Model of the JavaScript expression x or-else null on an optional string:
undefined and the empty string both become null. -/
def jsOrNull : Option String → Option String
  | none => none
  | some s => if s = "" then none else some s

/-- Model of createConsensusDecision (consensus.ts lines 69 to 106). When the
votes escalate and a rationale is present, the function itself stores the
hard-coded placeholder value include as final decision (source line 92); the
workflow callers overwrite that field with the adjudicator decision. -/
def createConsensusDecision (studyId : String) (votes : List ScreeningDecision)
    (stage : String) (adjudicatorRationale : Option String) (now : String) :
    Except String ConsensusDecision :=
  match calculateConsensus studyId votes stage with
  | .error e => .error e
  | .ok r =>
    if r.needsAdjudication then
      if jsStrFalsy adjudicatorRationale then
        .error "Adjudicator rationale required for escalated decisions"
      else
        .ok { stage := stage, study_id := studyId, votes := votes,
              consensus := r.preliminaryConsensus,
              final_decision := "include",
              adjudicator_rationale := jsOrNull adjudicatorRationale,
              timestamp := now }
    else
      .ok { stage := stage, study_id := studyId, votes := votes,
            consensus := r.preliminaryConsensus,
            final_decision := r.preliminaryConsensus,
            adjudicator_rationale := jsOrNull adjudicatorRationale,
            timestamp := now }

/-- Model of the per-record consensus construction performed by the workflow
(scopingReview, abstractScreening lines 418 to 446 and fullTextScreening lines
707 to 735): calculateConsensus, then on escalation a call to the adjudication
oracle whose final decision overwrites the field stored by
createConsensusDecision. -/
def consensusForVotes (studyId : String) (votes : List ScreeningDecision)
    (stage : String) (adjudicate : List ScreeningDecision → AdjudicatorResponse)
    (now : String) : Except String ConsensusDecision :=
  match calculateConsensus studyId votes stage with
  | .error e => .error e
  | .ok r =>
    if r.needsAdjudication then
      let adjudication := adjudicate votes
      match createConsensusDecision studyId votes stage
          (some adjudication.adjudicator_rationale) now with
      | .error e => .error e
      | .ok c => .ok { c with final_decision := adjudication.final_decision }
    else
      createConsensusDecision studyId votes stage none now

/-- Model of the StudySchema object (schemas.ts lines 12 to 24): one candidate
bibliographic record. The raw_record and publisher_url fields are omitted: no
code path modelled here reads them. -/
structure Study where
  study_id : String
  title : String
  authors : List String
  year : Int
  journal : String
  doi : Option String
  abstract : Option String
  keywords : Option (List String)
  source_file : String
deriving DecidableEq

/-- Model of the JavaScript whitespace class backslash-s restricted to its
ASCII members, which cover all inputs handled by the dedupe code. -/
def jsWhitespaceChar (c : Char) : Bool :=
  c = ' ' ∨ c = '\t' ∨ c = '\n' ∨ c = '\r' ∨ c = '\x0b' ∨ c = '\x0c'

/-- Model of the JavaScript word-character class backslash-w. -/
def jsWordChar (c : Char) : Bool :=
  (('a' ≤ c ∧ c ≤ 'z') ∨ ('A' ≤ c ∧ c ≤ 'Z') ∨ ('0' ≤ c ∧ c ≤ '9') ∨ c = '_')

/-- Splitting a character list at whitespace characters, keeping empty
segments, as String.prototype.split does. -/
def splitWs : List Char → List (List Char)
  | [] => [[]]
  | c :: rest =>
    let r := splitWs rest
    if jsWhitespaceChar c then [] :: r
    else
      match r with
      | [] => [[c]]
      | w :: ws => (c :: w) :: ws

/-- Joining segments with single spaces. -/
def joinWithSpace : List (List Char) → List Char
  | [] => []
  | [w] => w
  | w :: ws => w ++ ' ' :: joinWithSpace ws

/-- Model of replacing every whitespace run by one space and trimming, spelled
as splitting on whitespace, dropping empty segments and rejoining with single
spaces, which computes the same string. -/
def collapseWhitespace (s : String) : String :=
  String.mk (joinWithSpace ((splitWs s.data).filter (fun w => w ≠ [])))

/-- Model of normalizeTitle (dedupe.ts lines 367 to 373): lowercase, strip
punctuation, collapse whitespace, trim. -/
def normalizeTitle (title : String) : String :=
  collapseWhitespace
    (String.mk ((title.data.map Char.toLower).filter
      (fun c => jsWordChar c ∨ jsWhitespaceChar c)))

/-- Model of normalizeAuthor (dedupe.ts lines 395 to 401), the same pipeline as
normalizeTitle. -/
def normalizeAuthor (name : String) : String :=
  collapseWhitespace
    (String.mk ((name.data.map Char.toLower).filter
      (fun c => jsWordChar c ∨ jsWhitespaceChar c)))

/-- Character bigrams of a string, as used by the string-similarity package. -/
def bigrams : List Char → List (Char × Char)
  | a :: b :: rest => (a, b) :: bigrams (b :: rest)
  | _ => []

/-- Size of the multiset intersection of two bigram lists. The source package
walks the second list and decrements a count map built from the first list;
erasing one matching occurrence per hit is the same computation. -/
def bigramIntersect (firstBigrams : List (Char × Char)) :
    List (Char × Char) → Nat
  | [] => 0
  | b :: rest =>
    if firstBigrams.contains b then
      1 + bigramIntersect (firstBigrams.erase b) rest
    else
      bigramIntersect firstBigrams rest

/-- Model of compareTwoStrings from the string-similarity npm package (the
dependency called by compareTitles): the Dice coefficient on character bigrams
after removing all whitespace, with the identical-strings and
shorter-than-two-characters special cases. -/
def compareTwoStrings (first second : String) : Rat :=
  let f := first.data.filter (fun c => ¬ jsWhitespaceChar c)
  let s := second.data.filter (fun c => ¬ jsWhitespaceChar c)
  if f = s then 1
  else if f.length < 2 ∨ s.length < 2 then 0
  else
    Rat.divInt (2 * (bigramIntersect (bigrams f) (bigrams s) : Int))
      ((f.length + s.length - 2 : Nat) : Int)

/-- Model of compareTitles (dedupe.ts lines 357 to 362). -/
def compareTitles (title1 title2 : String) : Rat :=
  compareTwoStrings (normalizeTitle title1) (normalizeTitle title2)

/-- Model of authorsOverlap (dedupe.ts lines 378 to 390): Jaccard similarity of
the normalized author-name sets. -/
def authorsOverlap (authors1 authors2 : List String) : Rat :=
  if authors1.length = 0 ∨ authors2.length = 0 then 0
  else
    let normalized1 := (authors1.map normalizeAuthor).dedup
    let normalized2 := (authors2.map normalizeAuthor).dedup
    let intersection := normalized1.filter (fun a => normalized2.contains a)
    let union := (normalized1 ++ normalized2).dedup
    Rat.divInt (intersection.length : Int) (union.length : Int)

/-- Case-insensitive leading-match test on character lists. -/
def leadsWithCI : List Char → List Char → Bool
  | _, [] => true
  | [], _ :: _ => false
  | a :: as, b :: bs => (Char.toLower a = Char.toLower b) && leadsWithCI as bs

/-- Dropping whitespace at both ends of a character list. -/
def trimChars (cs : List Char) : List Char :=
  ((cs.dropWhile (fun c => jsWhitespaceChar c)).reverse.dropWhile
    (fun c => jsWhitespaceChar c)).reverse

/-- Model of normalizeDoi (dedupe.ts lines 406 to 414): strip a leading DOI URL
head or doi: label case-insensitively, lowercase, trim. This function is
exported by the source but is never called by findDuplicate. -/
def normalizeDoi (doi : Option String) : Option String :=
  match doi with
  | none => none
  | some d =>
    let cs := d.data
    let s1 := if leadsWithCI cs "https://doi.org/".data then cs.drop 16
              else if leadsWithCI cs "http://doi.org/".data then cs.drop 15
              else cs
    let s2 := if leadsWithCI s1 "doi:".data then
                (s1.drop 4).dropWhile (fun c => jsWhitespaceChar c)
              else s1
    some (String.mk (trimChars (s2.map Char.toLower)))

/-- Audit reason attached to a duplicate group. The source stores interpolated
strings; the payloads carry the interpolated numeric values. -/
inductive DedupeReason where
  | exactDoiMatch : DedupeReason
  | titleSimilarity : Rat → DedupeReason
  | sameAuthorsYearTitle : Rat → DedupeReason
deriving DecidableEq

/-- Model of the JavaScript truthiness of the nullable doi field: null and the
empty string are falsy. -/
def jsTruthyOptStr : Option String → Bool
  | none => false
  | some s => s ≠ ""

/-- Model of findDuplicate (dedupe.ts lines 318 to 352): walk the accepted
unique records in order and apply the three strategies to each candidate, first
match wins. Strategy 1 compares the raw doi fields for strict equality; it does
not call normalizeDoi. -/
def findDuplicate (study : Study) (existing : List Study)
    (titleSimilarityThreshold : Rat) : Option (Study × DedupeReason) :=
  match existing with
  | [] => none
  | candidate :: rest =>
    if jsTruthyOptStr study.doi && jsTruthyOptStr candidate.doi &&
        study.doi = candidate.doi then
      some (candidate, .exactDoiMatch)
    else
      let titleSim := compareTitles study.title candidate.title
      if titleSim ≥ titleSimilarityThreshold then
        some (candidate, .titleSimilarity titleSim)
      else if study.year = candidate.year ∧
          authorsOverlap study.authors candidate.authors > Rat.divInt 1 2 ∧
          titleSim > Rat.divInt 7 10 then
        some (candidate, .sameAuthorsYearTitle (authorsOverlap study.authors candidate.authors))
      else
        findDuplicate study rest titleSimilarityThreshold

/-- Model of one entry of the duplicates array of deduplicateStudies. -/
structure DupGroup where
  kept : String
  removed : List String
  reason : DedupeReason
deriving DecidableEq

/-- Model of the duplicate-group bookkeeping inside deduplicateStudies (lines
296 to 305): push onto the first group with the same kept id, else start a new
group. -/
def addDuplicate : List DupGroup → String → String → DedupeReason → List DupGroup
  | [], kept, removedId, reason => [{ kept := kept, removed := [removedId], reason := reason }]
  | g :: gs, kept, removedId, reason =>
    if g.kept = kept then { g with removed := g.removed ++ [removedId] } :: gs
    else g :: addDuplicate gs kept removedId reason

/-- Model of the main loop of deduplicateStudies (dedupe.ts lines 287 to 310),
with the unique and duplicates accumulators made explicit. -/
def dedupeGo (titleSimilarityThreshold : Rat) :
    List Study → List Study → List DupGroup → List Study × List DupGroup
  | [], unique, duplicates => (unique, duplicates)
  | study :: rest, unique, duplicates =>
    match findDuplicate study unique titleSimilarityThreshold with
    | some (m, reason) =>
      dedupeGo titleSimilarityThreshold rest unique
        (addDuplicate duplicates m.study_id study.study_id reason)
    | none =>
      dedupeGo titleSimilarityThreshold rest (unique ++ [study]) duplicates

/-- Model of the DedupeResult interface (dedupe.ts lines 261 to 268). -/
structure DedupeResult where
  unique : List Study
  duplicates : List DupGroup
deriving DecidableEq

/-- Model of deduplicateStudies (dedupe.ts lines 276 to 313). The source is
async but performs no suspension; it is a pure function of its arguments. The
source gives the threshold the default value 0.85; every modelled caller
passes it explicitly. -/
def deduplicateStudies (studies : List Study)
    (titleSimilarityThreshold : Rat) : DedupeResult :=
  let r := dedupeGo titleSimilarityThreshold studies [] []
  { unique := r.1, duplicates := r.2 }

/-- Model of the FullTextExclusionSchema object (schemas.ts lines 169 to 172). -/
structure FullTextExclusion where
  study_id : String
  reason : String
deriving DecidableEq

/-- Model of the PrismaCountsSchema object (schemas.ts lines 174 to 182): the
funnel counters. Each numeric field is validated by zod only as an integer; the
schema contains no refinement relating the fields to one another. -/
structure PrismaCounts where
  identified : Int
  deduplicated : Int
  title_abstract_screened : Int
  abstract_excluded : Int
  fulltext_retrieved : Int
  fulltext_excluded : List FullTextExclusion
  included : Int
deriving DecidableEq

/-- Model of the PCCSchema object (schemas.ts). -/
structure PCC where
  population : String
  concept : String
  context : String
deriving DecidableEq

/-- Model of the CriteriaSchema object (schemas.ts). -/
structure Criteria where
  pcc : PCC
  inclusion : List String
  exclusion : List String
deriving DecidableEq

/-- Model of the GlobalStateSchema object (schemas.ts lines 221 to 248): the
aggregate run state. The config, extractions and pdf_fetch_results fields are
omitted: no code path modelled here reads them. -/
structure GlobalState where
  run_id : String
  criteria : Option Criteria
  prospero_protocol : Option String
  studies : List Study
  prisma_counts : PrismaCounts
  abstract_decisions : List ScreeningDecision
  abstract_consensus : List ConsensusDecision
  fulltext_decisions : List ScreeningDecision
  fulltext_consensus : List ConsensusDecision
  missing_pdfs : List String
  current_stage : String
  created_at : String
  updated_at : String
deriving DecidableEq

/-- Model of the validation performed by ScreeningDecisionSchema.parse: stage
and decision must belong to their enums, reasons needs at least 2 entries and
evidence_quotes at least 1. String and number fields carry no refinement. -/
def screeningDecisionSchemaCheck (d : ScreeningDecision) : Bool :=
  (d.stage = "abstract" ∨ d.stage = "fulltext") &&
  (d.decision = "include" ∨ d.decision = "exclude" ∨ d.decision = "unsure") &&
  2 ≤ d.reasons.length &&
  1 ≤ d.evidence_quotes.length

/-- Model of the validation performed by ConsensusDecisionSchema.parse. -/
def consensusDecisionSchemaCheck (c : ConsensusDecision) : Bool :=
  (c.stage = "abstract" ∨ c.stage = "fulltext") &&
  c.votes.all screeningDecisionSchemaCheck &&
  (c.consensus = "include" ∨ c.consensus = "exclude" ∨
    c.consensus = "escalate_to_adjudicator") &&
  (c.final_decision = "include" ∨ c.final_decision = "exclude")

/-- Model of the validation performed by PrismaCountsSchema.parse: every
numeric field must be an integer, which holds by construction in this
embedding; no inequality between the counters is required by the schema. -/
def prismaCountsSchemaCheck (_c : PrismaCounts) : Bool :=
  true

/-- Enumeration of current_stage in GlobalStateSchema (schemas.ts lines 235
to 245). -/
def currentStageEnum : List String :=
  ["init", "ingested", "abstract_screening", "pdf_fetching", "pdf_to_markdown",
   "fulltext_screening", "extraction", "synthesis", "complete"]

/-- Model of the validation performed by GlobalStateSchema.parse, run by
StateStore.save before every write. -/
def globalStateSchemaCheck (st : GlobalState) : Bool :=
  st.abstract_decisions.all screeningDecisionSchemaCheck &&
  st.abstract_consensus.all consensusDecisionSchemaCheck &&
  st.fulltext_decisions.all screeningDecisionSchemaCheck &&
  st.fulltext_consensus.all consensusDecisionSchemaCheck &&
  prismaCountsSchemaCheck st.prisma_counts &&
  currentStageEnum.contains st.current_stage

/-- Model of the StateStore (store.ts lines 339 to 492): the in-memory state
plus the durable snapshot last written to state.json. The disk field is none
before the first successful save. -/
structure StateStore where
  state : GlobalState
  disk : Option GlobalState
deriving DecidableEq

/-- Model of StateStore.save (store.ts lines 401 to 418): validate the current
state against GlobalStateSchema, then write the full state to disk. A failed
validation throws and leaves the disk untouched. The updated_at refresh is not
modelled (wall-clock time). -/
def StateStore.save (s : StateStore) : Except String StateStore :=
  if globalStateSchemaCheck s.state then .ok { s with disk := some s.state }
  else .error "state validation failed"

/-- Model of StateStore.append for the abstract_decisions key (store.ts lines
449 to 466): extend the array in memory, then save. -/
def StateStore.appendAbstractDecisions (s : StateStore)
    (items : List ScreeningDecision) : Except String StateStore :=
  StateStore.save
    { s with state := { s.state with
        abstract_decisions := s.state.abstract_decisions ++ items } }

/-- Model of StateStore.append for the abstract_consensus key with a single
item, which the source wraps into a one-element array. -/
def StateStore.appendAbstractConsensus (s : StateStore)
    (item : ConsensusDecision) : Except String StateStore :=
  StateStore.save
    { s with state := { s.state with
        abstract_consensus := s.state.abstract_consensus ++ [item] } }

/-- Model of StateStore.append for the fulltext_decisions key. -/
def StateStore.appendFulltextDecisions (s : StateStore)
    (items : List ScreeningDecision) : Except String StateStore :=
  StateStore.save
    { s with state := { s.state with
        fulltext_decisions := s.state.fulltext_decisions ++ items } }

/-- Model of StateStore.append for the fulltext_consensus key with a single
item. -/
def StateStore.appendFulltextConsensus (s : StateStore)
    (item : ConsensusDecision) : Except String StateStore :=
  StateStore.save
    { s with state := { s.state with
        fulltext_consensus := s.state.fulltext_consensus ++ [item] } }

/-- Stage order used by the resume driver (scopingReview, shouldRunStage lines
283 to 293). It coincides with the current_stage enumeration of the schema. -/
def ScopingReviewWorkflow.stageOrder : List String :=
  ["init", "ingested", "abstract_screening", "pdf_fetching", "pdf_to_markdown",
   "fulltext_screening", "extraction", "synthesis", "complete"]

/-- Model of JavaScript Array.indexOf: the index of the first occurrence, or
minus one when absent. -/
def jsIndexOf (xs : List String) (x : String) : Int :=
  match xs.findIdx? (fun y => y = x) with
  | some i => (i : Int)
  | none => -1

/-- Model of ScopingReviewWorkflow.shouldRunStage (lines 282 to 299): a stage
runs whenever its index is at least the index of the current-stage marker. -/
def ScopingReviewWorkflow.shouldRunStage (currentStage targetStage : String) : Bool :=
  let currentIndex := jsIndexOf ScopingReviewWorkflow.stageOrder currentStage
  let targetIndex := jsIndexOf ScopingReviewWorkflow.stageOrder targetStage
  targetIndex ≥ currentIndex

/-- Model of the per-study loop of ScopingReviewWorkflow.abstractScreening
(lines 407 to 461): three oracle votes, consensus with adjudication override on
escalation, append of the votes then of the verdict (each append persists), and
the additional periodic save every 10 records. The agents and the adjudicator
are the external oracles, passed as functions. -/
def ScopingReviewWorkflow.abstractScreeningGo
    (agents : List (Study → ScreeningDecision))
    (adjudicate : Study → List ScreeningDecision → AdjudicatorResponse)
    (now : String) :
    List Study → StateStore → Nat → Nat → Except String (StateStore × Nat × Nat)
  | [], s, includedCount, excludedCount => .ok (s, includedCount, excludedCount)
  | study :: rest, s, includedCount, excludedCount =>
    let votes := agents.map (fun agent => agent study)
    match consensusForVotes study.study_id votes "abstract" (adjudicate study) now with
    | .error e => .error e
    | .ok consensus =>
      let includedCount :=
        if consensus.final_decision = "include" then includedCount + 1 else includedCount
      let excludedCount :=
        if consensus.final_decision = "include" then excludedCount else excludedCount + 1
      match StateStore.appendAbstractDecisions s votes with
      | .error e => .error e
      | .ok s =>
        match StateStore.appendAbstractConsensus s consensus with
        | .error e => .error e
        | .ok s =>
          match (if (includedCount + excludedCount) % 10 = 0
                 then StateStore.save s else .ok s) with
          | .error e => .error e
          | .ok s =>
            ScopingReviewWorkflow.abstractScreeningGo agents adjudicate now
              rest s includedCount excludedCount

/-- Model of ScopingReviewWorkflow.abstractScreening (lines 382 to 476): check
the criteria, run the per-study loop over every study of the state, then set
the counters and the stage marker and save. -/
def ScopingReviewWorkflow.abstractScreening
    (agents : List (Study → ScreeningDecision))
    (adjudicate : Study → List ScreeningDecision → AdjudicatorResponse)
    (now : String) (s : StateStore) : Except String StateStore :=
  match s.state.criteria with
  | none => .error "Criteria not set"
  | some _ =>
    match ScopingReviewWorkflow.abstractScreeningGo agents adjudicate now
        s.state.studies s 0 0 with
    | .error e => .error e
    | .ok (s, _includedCount, excludedCount) =>
      StateStore.save { s with state := { s.state with
        prisma_counts := { s.state.prisma_counts with
          title_abstract_screened := (s.state.studies.length : Int),
          abstract_excluded := (excludedCount : Int) },
        current_stage := "abstract_screening" } }

/-- Model of the abstract-screening step of ScopingReviewWorkflow.run (lines
224 to 227): the stage executes exactly when shouldRunStage accepts it. The
later stages of run are not modelled here; none of them touches the
abstract-stage votes or verdicts. -/
def ScopingReviewWorkflow.runAbstractStage
    (agents : List (Study → ScreeningDecision))
    (adjudicate : Study → List ScreeningDecision → AdjudicatorResponse)
    (now : String) (s : StateStore) : Except String StateStore :=
  if ScopingReviewWorkflow.shouldRunStage s.state.current_stage "abstract_screening" then
    ScopingReviewWorkflow.abstractScreening agents adjudicate now s
  else
    .ok s

/-- Model of ScopingReviewWorkflow.ingest (lines 328 to 377) from the point
where the parsed records are in hand: deduplicate, store the unique set and the
ingested marker (store.update saves), then set the identified and deduplicated
counters and save again. The format parsers are external collaborators; their
combined output is the allStudies argument. -/
def ScopingReviewWorkflow.ingest (allStudies : List Study)
    (titleSimilarityThreshold : Rat) (s : StateStore) : Except String StateStore :=
  let r := deduplicateStudies allStudies titleSimilarityThreshold
  match StateStore.save { s with state := { s.state with
      studies := r.unique, current_stage := "ingested" } } with
  | .error e => .error e
  | .ok s =>
    StateStore.save { s with state := { s.state with
      prisma_counts := { s.state.prisma_counts with
        identified := (allStudies.length : Int),
        deduplicated := (r.unique.length : Int) } } }

/-- Model of ScopingReviewWorkflow.pdfFetchingGate (lines 481 to 522): record
the missing list, move the marker to pdf_fetching, and set fulltext_retrieved
to the number of PDFs the external filesystem probe reported available. -/
def ScopingReviewWorkflow.pdfFetchingGate (available : List String)
    (missing : List String) (s : StateStore) : Except String StateStore :=
  StateStore.save { s with state := { s.state with
    missing_pdfs := missing,
    current_stage := "pdf_fetching",
    prisma_counts := { s.state.prisma_counts with
      fulltext_retrieved := (available.length : Int) } } }

/-- Model of the ExtractedPdf value produced by extractPdfText (pdfExtract.ts),
carried opaquely by the driver. -/
structure ExtractedPdf where
  full_text : String
deriving DecidableEq

/-- Model of the expression consensus.votes[0].reasons[0] or-else the literal
See decision log (scopingReview line 742), with JavaScript falsiness of
undefined and the empty string. -/
def fullTextExclusionReason (votes : List ScreeningDecision) : String :=
  match votes with
  | [] => "See decision log"
  | v :: _ =>
    match v.reasons with
    | [] => "See decision log"
    | r :: _ => if r = "" then "See decision log" else r

/-- Model of the per-study loop of ScopingReviewWorkflow.fullTextScreening
(lines 695 to 748): studies without an extracted PDF are skipped, otherwise
three votes are collected, consensus resolved, an exclusion pushed onto the
counters when the record is excluded, and votes and verdict appended (each
append persists). -/
def ScopingReviewWorkflow.fullTextScreeningGo
    (agents : List (Study → ExtractedPdf → ScreeningDecision))
    (adjudicate : Study → List ScreeningDecision → AdjudicatorResponse)
    (pdfExtractions : String → Option ExtractedPdf)
    (now : String) :
    List Study → StateStore → Nat → Except String (StateStore × Nat)
  | [], s, includedCount => .ok (s, includedCount)
  | study :: rest, s, includedCount =>
    match pdfExtractions study.study_id with
    | none =>
      ScopingReviewWorkflow.fullTextScreeningGo agents adjudicate pdfExtractions now
        rest s includedCount
    | some pdfText =>
      let votes := agents.map (fun agent => agent study pdfText)
      match consensusForVotes study.study_id votes "fulltext" (adjudicate study) now with
      | .error e => .error e
      | .ok consensus =>
        let next :=
          if consensus.final_decision = "include" then (s, includedCount + 1)
          else
            ({ s with state := { s.state with
                prisma_counts := { s.state.prisma_counts with
                  fulltext_excluded := s.state.prisma_counts.fulltext_excluded ++
                    [{ study_id := study.study_id,
                       reason := fullTextExclusionReason consensus.votes }] } } },
             includedCount)
        match StateStore.appendFulltextDecisions next.1 votes with
        | .error e => .error e
        | .ok s =>
          match StateStore.appendFulltextConsensus s consensus with
          | .error e => .error e
          | .ok s =>
            ScopingReviewWorkflow.fullTextScreeningGo agents adjudicate pdfExtractions now
              rest s next.2

/-- Model of ScopingReviewWorkflow.fullTextScreening (lines 651 to 756): the
records passing abstract screening are screened against their extracted PDFs,
then the included counter and the stage marker are written and saved. PDF
availability is re-derived from the filesystem (the pdfExtractions oracle) at
this point, independently of what the fetch gate counted earlier. -/
def ScopingReviewWorkflow.fullTextScreening
    (agents : List (Study → ExtractedPdf → ScreeningDecision))
    (adjudicate : Study → List ScreeningDecision → AdjudicatorResponse)
    (pdfExtractions : String → Option ExtractedPdf)
    (now : String) (s : StateStore) : Except String StateStore :=
  let includedStudies := s.state.abstract_consensus.filterMap (fun c =>
    if c.final_decision = "include" then
      s.state.studies.find? (fun st => st.study_id = c.study_id)
    else none)
  match ScopingReviewWorkflow.fullTextScreeningGo agents adjudicate pdfExtractions now
      includedStudies s 0 with
  | .error e => .error e
  | .ok (s, includedCount) =>
    StateStore.save { s with state := { s.state with
      current_stage := "fulltext_screening",
      prisma_counts := { s.state.prisma_counts with
        included := (includedCount : Int) } } }

/-- Formalization of the monotonic-funnel invariant exactly as the
specification words it: identified at least deduplicated at least screened at
least retrieved at least included. This definition follows the spec text, to be
compared with what the code actually enforces. -/
def funnelInvariantSpec (c : PrismaCounts) : Bool :=
  c.deduplicated ≤ c.identified &&
  c.title_abstract_screened ≤ c.deduplicated &&
  c.fulltext_retrieved ≤ c.title_abstract_screened &&
  c.included ≤ c.fulltext_retrieved

/-- Concrete vote fixture, mirroring createMockDecision of the repository test
suite (consensus.test.ts lines 9 to 25); it passes the screening-decision
schema. -/
def mkVote (d agentId studyId : String) : ScreeningDecision :=
  { stage := "abstract", agent_id := agentId, study_id := studyId,
    decision := d, reasons := ["Reason 1", "Reason 2"],
    evidence_quotes := [{ text := "Quote", location := "Abstract" }],
    timestamp := "2025-01-01T00:00:00Z", model := "test-model",
    prompt_hash := "hash123", seed := 42 }

/-- Concrete schema-valid verdict fixture. -/
def mkConsensus (studyId finalDecision : String)
    (votes : List ScreeningDecision) : ConsensusDecision :=
  { stage := "abstract", study_id := studyId, votes := votes,
    consensus := finalDecision, final_decision := finalDecision,
    adjudicator_rationale := none, timestamp := "2025-01-01T00:00:00Z" }

/-- Concrete criteria fixture. -/
def exCriteria : Criteria :=
  { pcc := { population := "adults", concept := "screening", context := "clinics" },
    inclusion := ["peer reviewed"], exclusion := ["editorials"] }

/-- Concrete study fixture. -/
def studyA : Study :=
  { study_id := "s-001", title := "Alpha study of screening", authors := ["Smith J"],
    year := 2020, journal := "J Med", doi := none, abstract := some "An abstract",
    keywords := none, source_file := "search.ris" }

/-- Votes already recorded for studyA in the resume fixture. -/
def c2Votes : List ScreeningDecision :=
  [mkVote "include" "screener-a" "s-001",
   mkVote "include" "screener-b" "s-001",
   mkVote "include" "screener-c" "s-001"]

/-- Run state that is already past abstract screening: the marker says
abstract_screening and studyA already has its three votes and its verdict. -/
def c2State : GlobalState :=
  { run_id := "run-1", criteria := some exCriteria, prospero_protocol := none,
    studies := [studyA],
    prisma_counts := { identified := 1, deduplicated := 1,
                       title_abstract_screened := 1, abstract_excluded := 0,
                       fulltext_retrieved := 0, fulltext_excluded := [],
                       included := 0 },
    abstract_decisions := c2Votes,
    abstract_consensus := [mkConsensus "s-001" "include" c2Votes],
    fulltext_decisions := [], fulltext_consensus := [], missing_pdfs := [],
    current_stage := "abstract_screening",
    created_at := "2025-01-01T00:00:00Z", updated_at := "2025-01-01T00:00:00Z" }

/-- Store for the resume fixture, with the disk in sync. -/
def c2Store : StateStore := { state := c2State, disk := some c2State }

/-- Screening-oracle fixture: three agents that vote include. -/
def c2Agents : List (Study → ScreeningDecision) :=
  [fun st => mkVote "include" "screener-a" st.study_id,
   fun st => mkVote "include" "screener-b" st.study_id,
   fun st => mkVote "include" "screener-c" st.study_id]

/-- Adjudication-oracle fixture. -/
def c2Adj : Study → List ScreeningDecision → AdjudicatorResponse :=
  fun _ _ => { final_decision := "include", adjudicator_rationale := "panel agreed" }

/-- Record with a lowercase DOI and a title unrelated to its pair. -/
def studyDoiLower : Study :=
  { study_id := "d-001", title := "aaaa", authors := ["Smith J"], year := 2000,
    journal := "J One", doi := some "10.1/abc", abstract := none,
    keywords := none, source_file := "a.ris" }

/-- Record with the same DOI as studyDoiLower up to letter case, and a title,
year and author list that match no dedupe strategy. -/
def studyDoiUpper : Study :=
  { study_id := "d-002", title := "zzzz", authors := ["Jones K"], year := 2001,
    journal := "J Two", doi := some "10.1/ABC", abstract := none,
    keywords := none, source_file := "b.ris" }

/-- Record with a DOI byte-identical to the one of studyDoiLower and an
otherwise unrelated content. -/
def studyDoiSame : Study :=
  { study_id := "d-003", title := "qqqq", authors := ["Lee P"], year := 2002,
    journal := "J Three", doi := some "10.1/abc", abstract := none,
    keywords := none, source_file := "c.ris" }

/-- Full-text screening-oracle fixture: three agents that vote include. -/
def ftAgents : List (Study → ExtractedPdf → ScreeningDecision) :=
  [fun st _ => mkVote "include" "ft-screener-a" st.study_id,
   fun st _ => mkVote "include" "ft-screener-b" st.study_id,
   fun st _ => mkVote "include" "ft-screener-c" st.study_id]

/-- Filesystem fixture for full-text screening: every PDF extracts, modelling
PDFs added by the operator after the fetch gate ran. -/
def c6PdfOracle : String → Option ExtractedPdf :=
  fun _ => some { full_text := "full text of the article" }

/-- Vote fixture for an escalating record: one include, one exclude, one
unsure. -/
def c1Votes : List ScreeningDecision :=
  [mkVote "include" "agent-1" "esc-1",
   mkVote "exclude" "agent-2" "esc-1",
   mkVote "unsure" "agent-3" "esc-1"]

/-- Adjudication-oracle fixture returning exclude. -/
def c1Adj : List ScreeningDecision → AdjudicatorResponse :=
  fun _ => { final_decision := "exclude",
             adjudicator_rationale := "the unsure vote cites missing population detail" }

/-- Total number of record ids recorded as removed across all duplicate
groups. -/
def totalRemoved (groups : List DupGroup) : Nat :=
  (groups.map (fun g => g.removed.length)).sum

/-- Projection of an Except result to an Option, used to state concrete
evaluations. -/
def exceptToOption {a : Type} : Except String a → Option a
  | .ok x => some x
  | .error _ => none

/-- The consensus the abstract-screening loop computes for one study from the
three agent votes, as a function of the study. -/
def consensusOfStudy (agents : List (Study → ScreeningDecision))
    (adjudicate : Study → List ScreeningDecision → AdjudicatorResponse)
    (now : String) (study : Study) : Except String ConsensusDecision :=
  consensusForVotes study.study_id (agents.map (fun agent => agent study))
    "abstract" (adjudicate study) now

/-- Resume fixture whose marker is strictly past abstract screening. -/
def c2StatePast : GlobalState :=
  { c2State with current_stage := "pdf_fetching" }

/-- Store for the strictly-past fixture, with the disk in sync. -/
def c2StorePast : StateStore := { state := c2StatePast, disk := some c2StatePast }

/-- Pipeline run for the funnel-counter scenario: the fetch gate finds zero
available PDFs for the record passing abstract screening, then full-text
screening runs after the operator supplied the PDF, and includes the record. -/
def c6Run : Except String StateStore :=
  match ScopingReviewWorkflow.pdfFetchingGate [] ["s-001"] c2Store with
  | .error e => .error e
  | .ok s1 => ScopingReviewWorkflow.fullTextScreening ftAgents c2Adj c6PdfOracle "t2" s1

deriving instance DecidableEq for Except

/-- Counting helper: when every decision is include or exclude, the include and
exclude tallies add up to the number of votes. -/
lemma count_include_exclude (l : List ScreeningDecision)
    (h : ∀ v ∈ l, v.decision = "include" ∨ v.decision = "exclude") :
    (l.filter (fun v => v.decision = "include")).length +
      (l.filter (fun v => v.decision = "exclude")).length = l.length := by
  induction l with
  | nil => simp
  | cons v tl ih =>
    have hv := h v (List.mem_cons_self v tl)
    have htl : ∀ w ∈ tl, w.decision = "include" ∨ w.decision = "exclude" :=
      fun w hw => h w (List.mem_cons_of_mem v hw)
    rcases hv with h1 | h1 <;>
      simp [List.filter_cons, h1, ← ih htl] <;> omega

/-- Membership helper: a vote with a given decision makes the corresponding
filter nonempty. -/
lemma filter_decision_pos (l : List ScreeningDecision) (d : String)
    (v : ScreeningDecision) (hv : v ∈ l) (hd : v.decision = d) :
    0 < (l.filter (fun w => w.decision = d)).length := by
  have hmem : v ∈ l.filter (fun w => w.decision = d) :=
    List.mem_filter.mpr ⟨hv, by simp [hd]⟩
  exact List.length_pos.mpr (List.ne_nil_of_mem hmem)

/-- Emptiness helper: when no vote carries the decision, the filter is empty. -/
lemma filter_decision_nil (l : List ScreeningDecision) (d : String)
    (h : ∀ v ∈ l, v.decision ≠ d) :
    l.filter (fun w => w.decision = d) = [] := by
  rw [List.filter_eq_nil_iff]
  intro a ha
  simp [h a ha]

/-- C4. For every panel of exactly 3 votes, calculateConsensus follows the
ordered rule of the specification: any unsure vote escalates regardless of the
other two, otherwise an include majority of at least 2 decides include,
otherwise an exclude majority of at least 2 decides exclude. -/
theorem c4_consensus_decision_rule (studyId stage : String)
    (votes : List ScreeningDecision) (h3 : votes.length = 3) :
    ((∃ v ∈ votes, v.decision = "unsure") →
      calculateConsensus studyId votes stage =
        .ok { needsAdjudication := true,
              preliminaryConsensus := "escalate_to_adjudicator" }) ∧
    ((∀ v ∈ votes, v.decision ≠ "unsure") →
      2 ≤ (votes.filter (fun v => v.decision = "include")).length →
      calculateConsensus studyId votes stage =
        .ok { needsAdjudication := false, preliminaryConsensus := "include" }) ∧
    ((∀ v ∈ votes, v.decision ≠ "unsure") →
      (votes.filter (fun v => v.decision = "include")).length < 2 →
      2 ≤ (votes.filter (fun v => v.decision = "exclude")).length →
      calculateConsensus studyId votes stage =
        .ok { needsAdjudication := false, preliminaryConsensus := "exclude" }) := by
  refine ⟨?_, ?_, ?_⟩
  · rintro ⟨v, hv, hd⟩
    have hpos := filter_decision_pos votes "unsure" v hv hd
    simp only [calculateConsensus, h3]
    simp [hpos]
  · intro hno hinc
    have hz := filter_decision_nil votes "unsure" hno
    simp only [calculateConsensus, h3]
    simp [hz, hinc]
  · intro hno hlt hexc
    have hz := filter_decision_nil votes "unsure" hno
    simp only [calculateConsensus, h3]
    simp [hz, hexc, Nat.not_le.mpr hlt]

/-- C4 witness: the 2-to-1 include panel from the repository test suite
decides include. -/
theorem c4_witness :
    calculateConsensus "test-study"
      [mkVote "include" "agent-1" "test-study",
       mkVote "include" "agent-2" "test-study",
       mkVote "exclude" "agent-3" "test-study"] "abstract" =
      .ok { needsAdjudication := false, preliminaryConsensus := "include" } :=
  (c4_consensus_decision_rule "test-study" "abstract"
    [mkVote "include" "agent-1" "test-study",
     mkVote "include" "agent-2" "test-study",
     mkVote "exclude" "agent-3" "test-study"] (by decide)).2.1
    (by decide) (by decide)

/-- C5. calculateConsensus throws exactly when the vote count differs from 3:
any other count produces the Expected-3-votes error, and a count of 3 always
produces a result. -/
theorem c5_vote_count_error (studyId stage : String)
    (votes : List ScreeningDecision) :
    (votes.length ≠ 3 →
      calculateConsensus studyId votes stage =
        .error ("Expected 3 votes, got " ++ toString votes.length)) ∧
    (votes.length = 3 →
      ∃ r, calculateConsensus studyId votes stage = .ok r) := by
  constructor
  · intro h
    simp [calculateConsensus, h]
  · intro h
    have hne : ¬ (votes.length ≠ 3) := by omega
    simp only [calculateConsensus]
    rw [if_neg hne]
    split
    · exact ⟨_, rfl⟩
    · split
      · exact ⟨_, rfl⟩
      · split
        · exact ⟨_, rfl⟩
        · exact ⟨_, rfl⟩

/-- C5 witness: an empty panel raises the vote-count error and a full panel
resolves. -/
theorem c5_witness :
    calculateConsensus "test-study" [] "abstract" =
      .error "Expected 3 votes, got 0" ∧
    ∃ r, calculateConsensus "test-study" c1Votes "abstract" = .ok r :=
  ⟨(c5_vote_count_error "test-study" "abstract" []).1 (by decide),
   (c5_vote_count_error "test-study" "abstract" c1Votes).2 (by decide)⟩

/-- C9. For every panel of exactly 3 votes in which every vote is include or
exclude (so none is unsure), calculateConsensus always returns a decided
result: the defensive final escalate branch is unreachable. -/
theorem c9_no_unsure_always_decides (studyId stage : String)
    (votes : List ScreeningDecision) (h3 : votes.length = 3)
    (hv : ∀ v ∈ votes, v.decision = "include" ∨ v.decision = "exclude") :
    ∃ r, calculateConsensus studyId votes stage = .ok r ∧
      r.needsAdjudication = false ∧
      (r.preliminaryConsensus = "include" ∨ r.preliminaryConsensus = "exclude") := by
  have hsum := count_include_exclude votes hv
  have hno : ∀ v ∈ votes, v.decision ≠ "unsure" := by
    intro v hmem
    rcases hv v hmem with h1 | h1 <;> simp [h1]
  have hz := filter_decision_nil votes "unsure" hno
  by_cases hinc : 2 ≤ (votes.filter (fun v => v.decision = "include")).length
  · refine ⟨{ needsAdjudication := false, preliminaryConsensus := "include" }, ?_, rfl, Or.inl rfl⟩
    simp only [calculateConsensus, h3]
    simp [hz, hinc]
  · have hexc : 2 ≤ (votes.filter (fun v => v.decision = "exclude")).length := by
      rw [h3] at hsum
      omega
    refine ⟨{ needsAdjudication := false, preliminaryConsensus := "exclude" }, ?_, rfl, Or.inr rfl⟩
    simp only [calculateConsensus, h3]
    simp [hz, hexc, hinc]

/-- C9 witness: a 2-to-1 exclude panel with no unsure vote decides. -/
theorem c9_witness :
    ∃ r, calculateConsensus "test-study"
      [mkVote "exclude" "agent-1" "test-study",
       mkVote "exclude" "agent-2" "test-study",
       mkVote "include" "agent-3" "test-study"] "abstract" = .ok r ∧
      r.needsAdjudication = false ∧
      (r.preliminaryConsensus = "include" ∨ r.preliminaryConsensus = "exclude") :=
  c9_no_unsure_always_decides "test-study" "abstract"
    [mkVote "exclude" "agent-1" "test-study",
     mkVote "exclude" "agent-2" "test-study",
     mkVote "include" "agent-3" "test-study"] (by decide) (by decide)

/-- C1. Whenever a panel escalates, the verdict the workflow stores carries
the adjudication-oracle decision verbatim as its final decision, together with
the oracle rationale; the placeholder written by createConsensusDecision is
always overwritten before the verdict is stored. -/
theorem c1_adjudicator_decision_is_authoritative
    (studyId stage now : String) (votes : List ScreeningDecision)
    (adjudicate : List ScreeningDecision → AdjudicatorResponse)
    (r : ConsensusCalc)
    (hcalc : calculateConsensus studyId votes stage = .ok r)
    (hesc : r.needsAdjudication = true)
    (hrat : (adjudicate votes).adjudicator_rationale ≠ "") :
    consensusForVotes studyId votes stage adjudicate now =
      .ok { stage := stage, study_id := studyId, votes := votes,
            consensus := r.preliminaryConsensus,
            final_decision := (adjudicate votes).final_decision,
            adjudicator_rationale := some (adjudicate votes).adjudicator_rationale,
            timestamp := now } := by
  simp [consensusForVotes, createConsensusDecision, hcalc, hesc,
    jsStrFalsy, jsOrNull, hrat]

/-- C1 witness: the specification scenario with votes include, exclude, unsure
and an adjudicator answer of exclude stores exclude, not the include
placeholder. -/
theorem c1_witness :
    consensusForVotes "esc-1" c1Votes "abstract" c1Adj "t0" =
      .ok { stage := "abstract", study_id := "esc-1", votes := c1Votes,
            consensus := "escalate_to_adjudicator",
            final_decision := "exclude",
            adjudicator_rationale :=
              some "the unsure vote cites missing population detail",
            timestamp := "t0" } :=
  c1_adjudicator_decision_is_authoritative "esc-1" "abstract" "t0" c1Votes c1Adj
    { needsAdjudication := true, preliminaryConsensus := "escalate_to_adjudicator" }
    (by decide) rfl (by decide)

/-- Replay property of the dedupe loop: the records it accepts as unique on
top of a given accumulator are replayed verbatim, with no duplicate found, when
fed back over the same accumulator. -/
lemma dedupeGo_replay (t : Rat) :
    ∀ (X acc : List Study) (d : List DupGroup),
      ∃ V, (dedupeGo t X acc d).1 = acc ++ V ∧
        ∀ d2, dedupeGo t V acc d2 = (acc ++ V, d2) := by
  intro X
  induction X with
  | nil =>
    intro acc d
    exact ⟨[], by simp [dedupeGo], fun d2 => by simp [dedupeGo]⟩
  | cons s rest ih =>
    intro acc d
    cases hfd : findDuplicate s acc t with
    | some p =>
      obtain ⟨m, rsn⟩ := p
      obtain ⟨V, hU, hrep⟩ := ih acc (addDuplicate d m.study_id s.study_id rsn)
      refine ⟨V, ?_, hrep⟩
      simp [dedupeGo, hfd, hU]
    | none =>
      obtain ⟨V, hU, hrep⟩ := ih (acc ++ [s]) d
      refine ⟨s :: V, ?_, ?_⟩
      · simp [dedupeGo, hfd, hU]
      · intro d2
        simp [dedupeGo, hfd, hrep d2]

/-- C7. Deduplication is idempotent: running deduplicateStudies on the unique
list it produced returns that same unique list and finds zero further
duplicates, for every input and every threshold. -/
theorem c7_dedupe_idempotent (X : List Study) (t : Rat) :
    deduplicateStudies (deduplicateStudies X t).unique t =
      { unique := (deduplicateStudies X t).unique, duplicates := [] } := by
  obtain ⟨V, hU, hrep⟩ := dedupeGo_replay t X [] []
  simp only [List.nil_append] at hU
  simp [deduplicateStudies, hU, hrep]

/-- Pushing one removed id onto the group bookkeeping grows the removed total
by exactly one. -/
lemma addDuplicate_totalRemoved (d : List DupGroup) (k rid : String)
    (rsn : DedupeReason) :
    totalRemoved (addDuplicate d k rid rsn) = totalRemoved d + 1 := by
  induction d with
  | nil => simp [addDuplicate, totalRemoved]
  | cons g gs ih =>
    by_cases hk : g.kept = k
    · simp [addDuplicate, hk, totalRemoved]
      omega
    · simp [addDuplicate, hk, totalRemoved] at *
      omega

/-- findDuplicate only ever returns a member of the existing unique list. -/
lemma findDuplicate_mem (study : Study) (t : Rat) :
    ∀ (existing : List Study) (p : Study × DedupeReason),
      findDuplicate study existing t = some p → p.1 ∈ existing := by
  intro existing
  induction existing with
  | nil => intro p hp; simp [findDuplicate] at hp
  | cons candidate rest ih =>
    intro p hp
    simp only [findDuplicate] at hp
    split at hp
    · cases hp
      exact List.mem_cons_self candidate rest
    · split at hp
      · cases hp
        exact List.mem_cons_self candidate rest
      · split at hp
        · cases hp
          exact List.mem_cons_self candidate rest
        · exact List.mem_cons_of_mem candidate (ih p hp)

/-- Kept ids survive the group bookkeeping: every kept id after addDuplicate
either was a kept id before or is the one just recorded. -/
lemma addDuplicate_kept (P : String → Prop) (d : List DupGroup)
    (k rid : String) (rsn : DedupeReason)
    (hd : ∀ g ∈ d, P g.kept) (hk : P k) :
    ∀ g ∈ addDuplicate d k rid rsn, P g.kept := by
  induction d with
  | nil =>
    intro g hg
    simp [addDuplicate] at hg
    rw [hg]
    exact hk
  | cons g0 gs ih =>
    intro g hg
    by_cases heq : g0.kept = k
    · simp [addDuplicate, heq] at hg
      rcases hg with hg | hg
      · rw [hg]
        exact hk
      · exact hd g (List.mem_cons_of_mem g0 hg)
    · simp [addDuplicate, heq] at hg
      rcases hg with hg | hg
      · rw [hg]
        exact hd g0 (List.mem_cons_self g0 gs)
      · exact ih (fun g2 hg2 => hd g2 (List.mem_cons_of_mem g0 hg2)) g hg

/-- Partition property of the dedupe loop relative to its accumulators: every
processed record lands either in the unique list or in exactly one removed
slot, and every kept id names a record of the final unique list. -/
lemma dedupeGo_partition (t : Rat) :
    ∀ (X acc : List Study) (d : List DupGroup),
      (dedupeGo t X acc d).1.length + totalRemoved (dedupeGo t X acc d).2 =
        acc.length + totalRemoved d + X.length ∧
      ((∀ g ∈ d, ∃ s ∈ acc, s.study_id = g.kept) →
        ∀ g ∈ (dedupeGo t X acc d).2,
          ∃ s ∈ (dedupeGo t X acc d).1, s.study_id = g.kept) := by
  intro X
  induction X with
  | nil =>
    intro acc d
    refine ⟨by simp [dedupeGo], ?_⟩
    intro hd g hg
    simp only [dedupeGo] at hg ⊢
    obtain ⟨s, hs, hsid⟩ := hd g hg
    exact ⟨s, hs, hsid⟩
  | cons s rest ih =>
    intro acc d
    cases hfd : findDuplicate s acc t with
    | some p =>
      obtain ⟨m, rsn⟩ := p
      have hmem : m ∈ acc := findDuplicate_mem s t acc (m, rsn) hfd
      obtain ⟨ihlen, ihkept⟩ := ih acc (addDuplicate d m.study_id s.study_id rsn)
      constructor
      · simp only [dedupeGo, hfd]
        have h2 := addDuplicate_totalRemoved d m.study_id s.study_id rsn
        simp only [List.length_cons]
        omega
      · intro hd2 g hg
        simp only [dedupeGo, hfd] at hg ⊢
        refine ihkept ?_ g hg
        refine addDuplicate_kept (fun k => ∃ s2 ∈ acc, s2.study_id = k) d
          m.study_id s.study_id rsn hd2 ⟨m, hmem, rfl⟩
    | none =>
      obtain ⟨ihlen, ihkept⟩ := ih (acc ++ [s]) d
      constructor
      · simp only [dedupeGo, hfd]
        rw [ihlen]
        simp
        omega
      · intro hd2 g hg
        simp only [dedupeGo, hfd] at hg ⊢
        refine ihkept ?_ g hg
        intro g2 hg2
        obtain ⟨s2, hs2, hsid⟩ := hd2 g2 hg2
        exact ⟨s2, List.mem_append_left [s] hs2, hsid⟩

/-- C10. Deduplication partitions its input: the length of the unique list
plus the total number of removed record ids equals the input length, and every
duplicate group keeps the id of a record of the unique list. -/
theorem c10_dedupe_partitions_input (X : List Study) (t : Rat) :
    (deduplicateStudies X t).unique.length +
      totalRemoved (deduplicateStudies X t).duplicates = X.length ∧
    ∀ g ∈ (deduplicateStudies X t).duplicates,
      ∃ s ∈ (deduplicateStudies X t).unique, s.study_id = g.kept := by
  obtain ⟨hlen, hkept⟩ := dedupeGo_partition t X [] []
  refine ⟨?_, ?_⟩
  · simpa [deduplicateStudies, totalRemoved] using hlen
  · intro g hg
    have := hkept (by simp) g (by simpa [deduplicateStudies] using hg)
    simpa [deduplicateStudies] using this

/-- C10 witness: on a two-record input with one exact-DOI duplicate, one
unique record plus one removed id accounts for both inputs and the kept id
names the surviving record. -/
theorem c10_witness :
    (deduplicateStudies [studyDoiLower, studyDoiSame] (Rat.divInt 85 100)).unique.length +
      totalRemoved (deduplicateStudies [studyDoiLower, studyDoiSame] (Rat.divInt 85 100)).duplicates = 2 ∧
    ∀ g ∈ (deduplicateStudies [studyDoiLower, studyDoiSame] (Rat.divInt 85 100)).duplicates,
      ∃ s ∈ (deduplicateStudies [studyDoiLower, studyDoiSame] (Rat.divInt 85 100)).unique,
        s.study_id = g.kept :=
  c10_dedupe_partitions_input [studyDoiLower, studyDoiSame] (Rat.divInt 85 100)

/-- C3 counterexample. Two records whose DOIs are equal up to letter case only
(normalizeDoi equates them) are NOT collapsed by deduplicate: strategy 1
compares the raw strings, so the run yields 2 unique records and no duplicate
entry, where the claim predicts 1 unique record. -/
theorem c3_counterexample_case_variant_doi_not_deduplicated :
    normalizeDoi studyDoiLower.doi = normalizeDoi studyDoiUpper.doi ∧
    studyDoiLower.doi ≠ studyDoiUpper.doi ∧
    (deduplicateStudies [studyDoiLower, studyDoiUpper] (Rat.divInt 85 100)).unique.length = 2 ∧
    (deduplicateStudies [studyDoiLower, studyDoiUpper] (Rat.divInt 85 100)).duplicates = [] := by
  refine ⟨by decide, by decide, by decide, by decide⟩

/-- C3 as amended. Strategy 1 matches two records exactly when both carry a
nonempty DOI and the two DOI strings are byte-identical, with no normalization
applied; in that case deduplicate keeps the first record and records the
second as its duplicate with the exact-DOI-match reason. -/
theorem c3_amended_exact_raw_doi_match (r1 r2 : Study) (dv : String)
    (t : Rat) (hd : dv ≠ "") (h1 : r1.doi = some dv) (h2 : r2.doi = some dv) :
    findDuplicate r2 [r1] t = some (r1, DedupeReason.exactDoiMatch) ∧
    (deduplicateStudies [r1, r2] t).unique = [r1] ∧
    (deduplicateStudies [r1, r2] t).duplicates =
      [{ kept := r1.study_id, removed := [r2.study_id],
         reason := DedupeReason.exactDoiMatch }] := by
  have hfd : findDuplicate r2 [r1] t = some (r1, DedupeReason.exactDoiMatch) := by
    simp [findDuplicate, jsTruthyOptStr, h1, h2, hd]
  have hnil : findDuplicate r1 [] t = none := rfl
  refine ⟨hfd, ?_, ?_⟩ <;>
    simp [deduplicateStudies, dedupeGo, hnil, hfd, addDuplicate]

/-- C3 amended witness: the two fixture records with the byte-identical DOI
10.1/abc collapse to one unique record with the exact-DOI-match reason. -/
theorem c3_amended_witness :
    findDuplicate studyDoiSame [studyDoiLower] (Rat.divInt 85 100) =
      some (studyDoiLower, DedupeReason.exactDoiMatch) ∧
    (deduplicateStudies [studyDoiLower, studyDoiSame] (Rat.divInt 85 100)).unique = [studyDoiLower] ∧
    (deduplicateStudies [studyDoiLower, studyDoiSame] (Rat.divInt 85 100)).duplicates =
      [{ kept := "d-001", removed := ["d-003"],
         reason := DedupeReason.exactDoiMatch }] :=
  c3_amended_exact_raw_doi_match studyDoiLower studyDoiSame "10.1/abc" (Rat.divInt 85 100)
    (by decide) rfl rfl

/-- A successful save leaves the in-memory state unchanged and writes exactly
that state to disk. -/
lemma StateStore.save_ok (s s2 : StateStore) (h : StateStore.save s = .ok s2) :
    s2.state = s.state ∧ s2.disk = some s.state := by
  unfold StateStore.save at h
  split at h
  · injection h with h
    subst h
    exact ⟨rfl, rfl⟩
  · simp at h

/-- A successful append of votes extends abstract_decisions and leaves the
disk in sync with the new state. -/
lemma appendAbstractDecisions_ok (s s2 : StateStore) (items : List ScreeningDecision)
    (h : StateStore.appendAbstractDecisions s items = .ok s2) :
    s2.state = { s.state with
      abstract_decisions := s.state.abstract_decisions ++ items } ∧
    s2.disk = some s2.state := by
  unfold StateStore.appendAbstractDecisions at h
  obtain ⟨h1, h2⟩ := StateStore.save_ok _ _ h
  exact ⟨h1, by rw [h2, h1]⟩

/-- A successful append of a verdict extends abstract_consensus and leaves the
disk in sync with the new state. -/
lemma appendAbstractConsensus_ok (s s2 : StateStore) (item : ConsensusDecision)
    (h : StateStore.appendAbstractConsensus s item = .ok s2) :
    s2.state = { s.state with
      abstract_consensus := s.state.abstract_consensus ++ [item] } ∧
    s2.disk = some s2.state := by
  unfold StateStore.appendAbstractConsensus at h
  obtain ⟨h1, h2⟩ := StateStore.save_ok _ _ h
  exact ⟨h1, by rw [h2, h1]⟩

/-- The optional periodic save preserves the state and the disk sync. -/
lemma maybeSave_ok (cond : Prop) [Decidable cond] (s s2 : StateStore)
    (hsync : s.disk = some s.state)
    (h : (if cond then StateStore.save s else .ok s) = .ok s2) :
    s2.state = s.state ∧ s2.disk = some s2.state := by
  by_cases hc : cond
  · rw [if_pos hc] at h
    obtain ⟨h1, h2⟩ := StateStore.save_ok s s2 h
    exact ⟨h1, by rw [h2, h1]⟩
  · rw [if_neg hc] at h
    injection h with h
    subst h
    exact ⟨rfl, hsync⟩

/-- Bind of a successful Except computation reduces to its continuation. -/
lemma except_ok_bind {a b : Type} (x : a) (f : a → Except String b) :
    (Except.ok x >>= f) = f x := rfl

/-- C8. One record at a time, the abstract-screening loop persists the full
run state after every appended verdict: whenever the loop starts from a store
whose disk mirrors memory and completes any list of records, the disk again
mirrors memory, and the in-memory (hence persisted) verdict list is the
starting list extended by exactly the verdict of every processed record in
order. Instantiated on any prefix of a stage, this says the persisted state
between two record resolutions contains all verdicts resolved so far. -/
theorem c8_full_state_persisted_after_every_record
    (agents : List (Study → ScreeningDecision))
    (adjudicate : Study → List ScreeningDecision → AdjudicatorResponse)
    (now : String) :
    ∀ (studies : List Study) (s0 : StateStore) (inc exc : Nat)
      (s1 : StateStore) (i e : Nat),
      s0.disk = some s0.state →
      ScopingReviewWorkflow.abstractScreeningGo agents adjudicate now
        studies s0 inc exc = .ok (s1, i, e) →
      s1.disk = some s1.state ∧
      ∃ l, studies.mapM (consensusOfStudy agents adjudicate now) = .ok l ∧
        s1.state.abstract_consensus = s0.state.abstract_consensus ++ l := by
  intro studies
  induction studies with
  | nil =>
    intro s0 inc exc s1 i e hsync hrun
    simp only [ScopingReviewWorkflow.abstractScreeningGo] at hrun
    injection hrun with hrun
    obtain ⟨h1, h2⟩ := Prod.mk.injEq .. |>.mp hrun
    subst h1
    exact ⟨hsync, [], rfl, by simp⟩
  | cons study rest ih =>
    intro s0 inc exc s1 i e hsync hrun
    simp only [ScopingReviewWorkflow.abstractScreeningGo] at hrun
    cases hc : consensusForVotes study.study_id
        (agents.map (fun agent => agent study)) "abstract" (adjudicate study) now with
    | error err =>
      rw [hc] at hrun
      simp at hrun
    | ok consensus =>
      rw [hc] at hrun
      dsimp only at hrun
      cases ha : StateStore.appendAbstractDecisions s0
          (agents.map (fun agent => agent study)) with
      | error err =>
        rw [ha] at hrun
        simp at hrun
      | ok sA =>
        rw [ha] at hrun
        dsimp only at hrun
        cases hb : StateStore.appendAbstractConsensus sA consensus with
        | error err =>
          rw [hb] at hrun
          simp at hrun
        | ok sB =>
          rw [hb] at hrun
          dsimp only at hrun
          cases hm : (if ((if consensus.final_decision = "include" then inc + 1 else inc) +
                (if consensus.final_decision = "include" then exc else exc + 1)) % 10 = 0
              then StateStore.save sB else .ok sB) with
          | error err =>
            rw [hm] at hrun
            simp at hrun
          | ok sC =>
            rw [hm] at hrun
            dsimp only at hrun
            obtain ⟨hAstate, hAsync⟩ := appendAbstractDecisions_ok s0 sA _ ha
            obtain ⟨hBstate, hBsync⟩ := appendAbstractConsensus_ok sA sB _ hb
            obtain ⟨hCstate, hCsync⟩ := maybeSave_ok _ sB sC hBsync hm
            obtain ⟨hs1sync, l, hmap, hacc⟩ := ih sC _ _ s1 i e hCsync hrun
            refine ⟨hs1sync, consensus :: l, ?_, ?_⟩
            · simp only [List.mapM_cons, consensusOfStudy, hc, except_ok_bind, hmap]
              rfl
            · rw [hacc, hCstate, hBstate, hAstate]
              simp

/-- C8 witness: running the loop over one record from the synced fixture store
completes, leaves the disk mirroring memory, and appends exactly that record
verdict. -/
theorem c8_witness :
    ∃ s1 i e,
      ScopingReviewWorkflow.abstractScreeningGo c2Agents c2Adj "t1" [studyA]
        c2Store 0 0 = .ok (s1, i, e) ∧
      s1.disk = some s1.state ∧
      ∃ l, List.mapM (consensusOfStudy c2Agents c2Adj "t1") [studyA] = .ok l ∧
        s1.state.abstract_consensus = c2Store.state.abstract_consensus ++ l := by
  cases hgo : ScopingReviewWorkflow.abstractScreeningGo c2Agents c2Adj "t1" [studyA]
      c2Store 0 0 with
  | error err =>
    have hsome : exceptToOption (ScopingReviewWorkflow.abstractScreeningGo c2Agents
        c2Adj "t1" [studyA] c2Store 0 0) ≠ none := by decide
    exact absurd (by rw [hgo]; rfl) hsome
  | ok t =>
    obtain ⟨s1, i, e⟩ := t
    obtain ⟨hsync, l, hmap, hacc⟩ :=
      c8_full_state_persisted_after_every_record c2Agents c2Adj "t1" [studyA]
        c2Store 0 0 s1 i e rfl hgo
    exact ⟨s1, i, e, rfl, hsync, l, hmap, hacc⟩

/-- C2 counterexample. A persisted state already past abstract screening (its
marker is abstract_screening, and its one record already has three votes and a
verdict) is re-run in full by the driver: shouldRunStage accepts the stage at
equal index, and running the abstract stage again appends 3 new votes and 1
new verdict for the already-decided record instead of zero. -/
theorem c2_counterexample_completed_stage_reruns_and_appends :
    ScopingReviewWorkflow.shouldRunStage "abstract_screening" "abstract_screening" = true ∧
    c2Store.state.abstract_consensus.length = 1 ∧
    c2Store.state.abstract_decisions.length = 3 ∧
    (exceptToOption (ScopingReviewWorkflow.runAbstractStage c2Agents c2Adj "t1" c2Store)).map
      (fun s => (s.state.abstract_consensus.length, s.state.abstract_decisions.length)) =
      some (2, 6) := by
  refine ⟨by decide, rfl, rfl, by decide⟩

/-- C2 as amended. The driver skips a stage only when the current-stage marker
lies strictly later in the stage order: for every state whose marker index is
strictly greater than the abstract-screening index, running the abstract step
again returns the state unchanged, appending no votes and no verdicts. -/
theorem c2_amended_strictly_past_stage_not_rerun
    (agents : List (Study → ScreeningDecision))
    (adjudicate : Study → List ScreeningDecision → AdjudicatorResponse)
    (now : String) (s : StateStore)
    (h : jsIndexOf ScopingReviewWorkflow.stageOrder "abstract_screening" <
         jsIndexOf ScopingReviewWorkflow.stageOrder s.state.current_stage) :
    ScopingReviewWorkflow.runAbstractStage agents adjudicate now s = .ok s := by
  have hfalse : ScopingReviewWorkflow.shouldRunStage s.state.current_stage
      "abstract_screening" = false := by
    unfold ScopingReviewWorkflow.shouldRunStage
    simp only [decide_eq_false_iff_not, ge_iff_le, not_le]
    exact h
  unfold ScopingReviewWorkflow.runAbstractStage
  simp [hfalse]

/-- C2 amended witness: a state whose marker is pdf_fetching is not re-screened
at the abstract stage. -/
theorem c2_amended_witness :
    ScopingReviewWorkflow.runAbstractStage c2Agents c2Adj "t1" c2StorePast =
      .ok c2StorePast :=
  c2_amended_strictly_past_stage_not_rerun c2Agents c2Adj "t1" c2StorePast (by decide)

/-- C6 counterexample. The pipeline persists a FunnelCounters snapshot that
violates the monotonic-funnel inequality: after the fetch gate records zero
retrieved PDFs, full-text screening re-probes the filesystem, screens the
record whose PDF appeared later, and persists included equal to 1 with
fulltext_retrieved still 0; the save-time validation (the structural schema)
accepts this state, because no funnel inequality is checked anywhere. -/
theorem c6_counterexample_funnel_violated_and_persisted :
    (exceptToOption c6Run).map (fun s => funnelInvariantSpec s.state.prisma_counts) =
      some false ∧
    (exceptToOption c6Run).map (fun s => globalStateSchemaCheck s.state) = some true ∧
    (exceptToOption c6Run).map (fun s =>
      (s.state.prisma_counts.fulltext_retrieved, s.state.prisma_counts.included)) =
      some (0, 1) ∧
    (exceptToOption c6Run).map (fun s => decide (s.disk = some s.state)) = some true := by
  refine ⟨by decide, by decide, by decide, by decide⟩

/-- C6 as amended. Every save validates only the structural schema, and the
counters written by ingestion do satisfy the head of the funnel chain:
identified is at least deduplicated in every state ingest persists; the rest
of the chain is not enforced. -/
theorem c6_amended_ingest_identified_ge_deduplicated
    (allStudies : List Study) (t : Rat) (s s2 : StateStore)
    (h : ScopingReviewWorkflow.ingest allStudies t s = .ok s2) :
    s2.state.prisma_counts.deduplicated ≤ s2.state.prisma_counts.identified ∧
    s2.disk = some s2.state := by
  have hlen := (dedupeGo_partition t allStudies [] []).1
  unfold ScopingReviewWorkflow.ingest at h
  dsimp only at h
  split at h
  · simp at h
  · obtain ⟨h2state, h2disk⟩ := StateStore.save_ok _ _ h
    refine ⟨?_, ?_⟩
    · rw [h2state]
      have hN : (dedupeGo t allStudies [] []).1.length ≤ allStudies.length := by
        simp only [List.length_nil, totalRemoved, List.map_nil, List.sum_nil] at hlen
        omega
      simp [deduplicateStudies]
      exact_mod_cast hN
    · rw [h2disk, ← h2state]

/-- C6 amended witness: ingesting the one-record fixture yields a persisted
state with identified at least deduplicated and the disk in sync. -/
theorem c6_amended_witness :
    ∃ s2, ScopingReviewWorkflow.ingest [studyA] (Rat.divInt 85 100) c2Store = .ok s2 ∧
      s2.state.prisma_counts.deduplicated ≤ s2.state.prisma_counts.identified ∧
      s2.disk = some s2.state := by
  cases hgo : ScopingReviewWorkflow.ingest [studyA] (Rat.divInt 85 100) c2Store with
  | error err =>
    have hsome : exceptToOption (ScopingReviewWorkflow.ingest [studyA]
        (Rat.divInt 85 100) c2Store) ≠ none := by decide
    exact absurd (by rw [hgo]; rfl) hsome
  | ok s2 =>
    obtain ⟨h1, h2⟩ := c6_amended_ingest_identified_ge_deduplicated [studyA]
      (Rat.divInt 85 100) c2Store s2 hgo
    exact ⟨s2, rfl, h1, h2⟩
